import Mathlib

set_option maxHeartbeats 1000000

/-!
Shallow embedding of `vite-plugin-backend` (src/index.ts) and proofs about it.

JavaScript values are modelled as follows: optional values (`undefined`) are
`Option`, machine numbers that appear (ports, byte limits) are `Nat`,
exceptions are `Except String`, and the file system / process state are
explicit parameters.  Node built-ins used by the plugin (`String.prototype`
methods, `path.join`, `fs`) are embedded from their documented semantics.
-/

/-- JavaScript truthiness of an optional string: `undefined` and `""` are falsy. -/
def truthyStr : Option String → Bool
  | none => false
  | some s => s ≠ ""

/-- JavaScript `String.prototype.trim` (strip whitespace from both ends). -/
def jsTrim (s : String) : String :=
  String.mk (((s.data.dropWhile Char.isWhitespace).reverse.dropWhile Char.isWhitespace).reverse)

/-- JavaScript `str.replace(/^\/+/, "")`: strip every leading forward slash. -/
def stripLeadingSlashes (s : String) : String :=
  String.mk (s.data.dropWhile (fun c => c == '/'))

/-- JavaScript `str.replace(/\/+$/, "")`: strip every trailing forward slash. -/
def stripTrailingSlashes (s : String) : String :=
  String.mk ((s.data.reverse.dropWhile (fun c => c == '/')).reverse)

/-- Collapse every run of consecutive forward slashes to a single slash; the
flag records whether the previous character was a slash. -/
def collapseAux : Bool → List Char → List Char
  | _, [] => []
  | prevSlash, c :: rest =>
    if c == '/' then
      if prevSlash then collapseAux true rest
      else '/' :: collapseAux true rest
    else c :: collapseAux false rest

/-- Collapse every run of consecutive forward slashes to a single slash. -/
def collapseSlashes (l : List Char) : List Char := collapseAux false l

/-- Node `path.join` for the two plain posix segments the plugin joins
(`publicDirectory` and `"hot"` / `buildDirectory`); dot-segment handling of
`path.join` is not reachable from those call sites. -/
def pathJoin (a b : String) : String :=
  if a = "" then b
  else String.mk (collapseSlashes (a ++ "/" ++ b).data)

/-- The `input` option of the plugin: one entry path or an ordered list of paths. -/
inductive InputVal
  | one (s : String)
  | many (l : List String)
deriving DecidableEq

/-- The `detectTls` option: `string | boolean | null`. -/
inductive DetectTls
  | str (s : String)
  | bool (b : Bool)
  | null
deriving DecidableEq

/-- User-facing `PluginConfig` (src/index.ts lines 7-51): every field optional
except that `input` being absent is reported by `resolvePluginConfig`. -/
structure PluginConfigIn where
  name : Option String := none
  input : Option InputVal := none
  publicDirectory : Option String := none
  buildDirectory : Option String := none
  hotFile : Option String := none
  detectTls : Option DetectTls := none
  transformOnServe : Option (String → String → String) := none

/-- The argument accepted by the plugin entry point:
`string | string[] | PluginConfig`, plus JavaScript `undefined`. -/
inductive BackendConfigArg
  | str (s : String)
  | list (l : List String)
  | obj (c : PluginConfigIn)
  | undef

/-- `Required<PluginConfig>`: the fully-defaulted configuration. -/
structure PluginConfigFull where
  name : String
  input : InputVal
  publicDirectory : String
  buildDirectory : String
  hotFile : String
  detectTls : DetectTls
  transformOnServe : String → String → String

/-- Core of `resolvePluginConfig` (src/index.ts lines 195-223), operating on
the object form after string/array arguments have been wrapped. -/
def resolvePluginConfigObj (config : PluginConfigIn) : Except String PluginConfigFull := do
  let input ← match config.input with
    | none => Except.error "vite-plugin-backend: missing configuration for \x22input\x22."
    | some i => pure i
  let publicDirectory? ← match config.publicDirectory with
    | some s =>
      let t := stripLeadingSlashes (jsTrim s)
      if t = "" then
        Except.error "vite-plugin-backend: publicDirectory must be a subdirectory. E.g. \x27public\x27."
      else pure (some t)
    | none => pure (none : Option String)
  let buildDirectory? ← match config.buildDirectory with
    | some s =>
      let t := stripTrailingSlashes (stripLeadingSlashes (jsTrim s))
      if t = "" then
        Except.error "vite-plugin-backend: buildDirectory must be a subdirectory. E.g. \x27build\x27."
      else pure (some t)
    | none => pure (none : Option String)
  pure
    { name := config.name.getD "backend"
      input := input
      publicDirectory := publicDirectory?.getD "public"
      buildDirectory := buildDirectory?.getD "build"
      hotFile := config.hotFile.getD (pathJoin (publicDirectory?.getD "public") "hot")
      detectTls := config.detectTls.getD DetectTls.null
      transformOnServe := config.transformOnServe.getD (fun code _ => code) }

/-- `resolvePluginConfig` (src/index.ts lines 186-224): wrap a bare path or
path list into `{ input: ... }`, reject a missing argument, then normalize. -/
def resolvePluginConfig (arg : BackendConfigArg) : Except String PluginConfigFull :=
  match arg with
  | .undef => Except.error "vite-plugin-backend: missing configuration."
  | .str s => resolvePluginConfigObj { input := some (InputVal.one s) }
  | .list l => resolvePluginConfigObj { input := some (InputVal.many l) }
  | .obj c => resolvePluginConfigObj c

/-- Whether an `Except` is an error. -/
def exceptIsError : Except String α → Bool
  | .error _ => true
  | .ok _ => false

/-- Feed a fully-resolved configuration back to the plugin entry as an object
whose every field is explicitly present. -/
def toArg (c : PluginConfigFull) : BackendConfigArg :=
  BackendConfigArg.obj
    { name := some c.name
      input := some c.input
      publicDirectory := some c.publicDirectory
      buildDirectory := some c.buildDirectory
      hotFile := some c.hotFile
      detectTls := some c.detectTls
      transformOnServe := some c.transformOnServe }

theorem stripLeadingSlashes_idem (s : String) :
    stripLeadingSlashes (stripLeadingSlashes s) = stripLeadingSlashes s := by
  simp [stripLeadingSlashes, List.dropWhile_idempotent]

theorem stripTrailingSlashes_eq_rdropWhile (s : String) :
    stripTrailingSlashes s = String.mk (s.data.rdropWhile (fun c => c == '/')) := by
  simp [stripTrailingSlashes, List.rdropWhile]

theorem stripTrailingSlashes_idem (s : String) :
    stripTrailingSlashes (stripTrailingSlashes s) = stripTrailingSlashes s := by
  simp [stripTrailingSlashes_eq_rdropWhile, List.rdropWhile_idempotent]

theorem stripLeadingSlashes_stripTrailingSlashes (s : String)
    (h : stripLeadingSlashes s = s) :
    stripLeadingSlashes (stripTrailingSlashes s) = stripTrailingSlashes s := by
  have hl : s.data.dropWhile (fun c => c == '/') = s.data := congrArg String.data h
  rw [stripTrailingSlashes_eq_rdropWhile]
  show String.mk ((s.data.rdropWhile (fun c => c == '/')).dropWhile (fun c => c == '/')) = _
  congr 1
  rw [List.dropWhile_eq_self_iff]
  intro hlen
  have hpre : s.data.rdropWhile (fun c => c == '/') <+: s.data := List.rdropWhile_prefix _ _
  have hlen' : 0 < s.data.length := lt_of_lt_of_le hlen hpre.length_le
  have := (List.dropWhile_eq_self_iff.mp hl) hlen'
  simp only [List.get_eq_getElem] at this
  simpa [hpre.getElem hlen] using this

theorem exceptErrorBind (e : String) (f : α → Except String β) :
    (Except.error e >>= f) = (Except.error e : Except String β) := rfl

/-- Claim C3 counterexample: normalizing `publicDirectory = "/public/"` yields
`"public/"`, not `"public"` as the claim states — the code strips only leading
slashes from `publicDirectory` (src/index.ts line 200). -/
theorem c3_counterexample :
    ((resolvePluginConfig (.obj { input := some (.one "app.ts"), publicDirectory := some "/public/" })).map
      (fun c => c.publicDirectory)).toOption = some "public/"
    ∧ ((resolvePluginConfig (.obj { input := some (.one "app.ts"), publicDirectory := some "/public/" })).map
      (fun c => c.publicDirectory)).toOption ≠ some "public" := by
  constructor
  · decide
  · decide

/-- Claim C3 (amended): normalizing `publicDirectory = "/public/"` yields
`"public/"` (only leading slashes are stripped there), normalizing
`buildDirectory = "/build/"` yields `"build"` (leading and trailing slashes
stripped), and every user value of either directory that reduces to the empty
string after trimming makes normalization throw instead of producing a
configuration. -/
theorem c3_directory_normalization :
    (((resolvePluginConfig (.obj { input := some (.one "app.ts"), publicDirectory := some "/public/" })).map
      (fun c => c.publicDirectory)).toOption = some "public/")
    ∧ (((resolvePluginConfig (.obj { input := some (.one "app.ts"), buildDirectory := some "/build/" })).map
      (fun c => c.buildDirectory)).toOption = some "build")
    ∧ (∀ (c : PluginConfigIn) (s : String), jsTrim s = "" →
        (c.publicDirectory = some s → exceptIsError (resolvePluginConfig (.obj c)) = true)
        ∧ (c.buildDirectory = some s → exceptIsError (resolvePluginConfig (.obj c)) = true)) := by
  refine ⟨by decide, by decide, ?_⟩
  intro c s htrim
  have ht : stripLeadingSlashes (jsTrim s) = "" := by rw [htrim]; rfl
  have ht2 : stripTrailingSlashes (stripLeadingSlashes (jsTrim s)) = "" := by rw [htrim]; rfl
  constructor
  · intro h
    cases hi : c.input with
    | none => simp [resolvePluginConfig, resolvePluginConfigObj, hi, exceptErrorBind, exceptIsError]
    | some i =>
      simp [resolvePluginConfig, resolvePluginConfigObj, hi, h, ht, exceptErrorBind, exceptIsError]
  · intro h
    cases hi : c.input with
    | none => simp [resolvePluginConfig, resolvePluginConfigObj, hi, exceptErrorBind, exceptIsError]
    | some i =>
      cases hp : c.publicDirectory with
      | none => simp [resolvePluginConfig, resolvePluginConfigObj, hi, hp, h, ht2, exceptErrorBind, exceptIsError]
      | some ps =>
        by_cases hpe : stripLeadingSlashes (jsTrim ps) = ""
        · simp [resolvePluginConfig, resolvePluginConfigObj, hi, hp, hpe, exceptErrorBind, exceptIsError]
        · simp [resolvePluginConfig, resolvePluginConfigObj, hi, hp, hpe, h, ht2, exceptErrorBind, exceptIsError]

/-- Witness for C3: a concrete whitespace-only `publicDirectory` is rejected. -/
theorem c3_directory_normalization_witness :
    jsTrim "  " = ""
    ∧ exceptIsError (resolvePluginConfig (.obj { input := some (.one "app.ts"), publicDirectory := some "  " })) = true :=
  ⟨by decide,
   (c3_directory_normalization.2.2 { input := some (.one "app.ts"), publicDirectory := some "  " } "  "
      (by decide)).1 rfl⟩

/-- Shape of every configuration produced by normalization: the public
directory carries no leading slash, the build directory neither leading nor
trailing slashes, and both are non-empty. -/
theorem resolvePluginConfigObj_ok_shape (cIn : PluginConfigIn) (c : PluginConfigFull)
    (h : resolvePluginConfigObj cIn = .ok c) :
    stripLeadingSlashes c.publicDirectory = c.publicDirectory ∧ c.publicDirectory ≠ ""
    ∧ stripLeadingSlashes c.buildDirectory = c.buildDirectory
    ∧ stripTrailingSlashes c.buildDirectory = c.buildDirectory ∧ c.buildDirectory ≠ "" := by
  unfold resolvePluginConfigObj at h
  simp only [bind, Except.bind, pure, Except.pure] at h
  split at h
  · exact absurd h (by simp)
  · split at h
    · rename_i s
      split at h
      · exact absurd h (by simp)
      · rename_i hpe
        split at h
        · rename_i bs
          split at h
          · exact absurd h (by simp)
          · rename_i hbe
            injection h with h2
            subst h2
            refine ⟨stripLeadingSlashes_idem _, hpe, ?_, stripTrailingSlashes_idem _, hbe⟩
            exact stripLeadingSlashes_stripTrailingSlashes _ (stripLeadingSlashes_idem _)
        · injection h with h2
          subst h2
          exact ⟨stripLeadingSlashes_idem _, hpe,
            show stripLeadingSlashes "build" = "build" by decide,
            show stripTrailingSlashes "build" = "build" by decide,
            show ("build" : String) ≠ "" by decide⟩
    · split at h
      · rename_i bs
        split at h
        · exact absurd h (by simp)
        · rename_i hbe
          injection h with h2
          subst h2
          refine ⟨show stripLeadingSlashes "public" = "public" by decide,
            show ("public" : String) ≠ "" by decide, ?_, stripTrailingSlashes_idem _, hbe⟩
          exact stripLeadingSlashes_stripTrailingSlashes _ (stripLeadingSlashes_idem _)
      · injection h with h2
        subst h2
        exact ⟨show stripLeadingSlashes "public" = "public" by decide,
          show ("public" : String) ≠ "" by decide,
          show stripLeadingSlashes "build" = "build" by decide,
          show stripTrailingSlashes "build" = "build" by decide,
          show ("build" : String) ≠ "" by decide⟩

/-- Claim C7 counterexample: normalization is not idempotent for every valid
input.  With `publicDirectory = "/ p"` the first pass yields `" p"` (slash
stripping exposes a space that `trim` already ran too early to remove), and a
second pass trims it to `"p"`. -/
theorem c7_counterexample :
    ((resolvePluginConfig (.obj { input := some (.one "app.ts"), publicDirectory := some "/ p" })).map
      (fun c => c.publicDirectory)).toOption = some " p"
    ∧ (((resolvePluginConfig (.obj { input := some (.one "app.ts"), publicDirectory := some "/ p" })).bind
      (fun c => resolvePluginConfig (toArg c))).map (fun c => c.publicDirectory)).toOption = some "p"
    ∧ (" p" : String) ≠ "p" := by
  refine ⟨by decide, by decide, by decide⟩

/-- Claim C7 (amended): normalization is idempotent for every valid input whose
normalized directory values are already trimmed — that is, whenever stripping
slashes did not expose surrounding whitespace (always the case for single-path
and path-list inputs).  Renormalizing such a configuration returns it
unchanged. -/
theorem c7_normalization_idempotent_on_trimmed (a : BackendConfigArg) (c : PluginConfigFull)
    (h : resolvePluginConfig a = .ok c)
    (hp : jsTrim c.publicDirectory = c.publicDirectory)
    (hb : jsTrim c.buildDirectory = c.buildDirectory) :
    resolvePluginConfig (toArg c) = .ok c := by
  have hshape : stripLeadingSlashes c.publicDirectory = c.publicDirectory ∧ c.publicDirectory ≠ ""
      ∧ stripLeadingSlashes c.buildDirectory = c.buildDirectory
      ∧ stripTrailingSlashes c.buildDirectory = c.buildDirectory ∧ c.buildDirectory ≠ "" := by
    cases a with
    | undef => exact absurd h (by simp [resolvePluginConfig])
    | str s => exact resolvePluginConfigObj_ok_shape _ _ (by simpa [resolvePluginConfig] using h)
    | list l => exact resolvePluginConfigObj_ok_shape _ _ (by simpa [resolvePluginConfig] using h)
    | obj cIn => exact resolvePluginConfigObj_ok_shape _ _ (by simpa [resolvePluginConfig] using h)
  obtain ⟨s1, s2, s3, s4, s5⟩ := hshape
  obtain ⟨n, i, pd, bd, hf, dt, ts⟩ := c
  simp only [PluginConfigFull.publicDirectory, PluginConfigFull.buildDirectory] at hp hb s1 s2 s3 s4 s5
  simp only [toArg, resolvePluginConfig]
  unfold resolvePluginConfigObj
  simp only [bind, Except.bind, pure, Except.pure]
  rw [show stripLeadingSlashes (jsTrim pd) = pd from by rw [hp]; exact s1]
  rw [if_neg s2]
  rw [show stripTrailingSlashes (stripLeadingSlashes (jsTrim bd)) = bd from by rw [hb, s3]; exact s4]
  rw [if_neg s5]
  rfl

/-- Witness for C7: renormalizing the configuration resolved from the bare
path `"app.ts"` returns it unchanged. -/
theorem c7_normalization_idempotent_on_trimmed_witness :
    resolvePluginConfig (toArg
      { name := "backend", input := InputVal.one "app.ts", publicDirectory := "public",
        buildDirectory := "build", hotFile := "public/hot", detectTls := DetectTls.null,
        transformOnServe := fun code _ => code })
    = .ok
      { name := "backend", input := InputVal.one "app.ts", publicDirectory := "public",
        buildDirectory := "build", hotFile := "public/hot", detectTls := DetectTls.null,
        transformOnServe := fun code _ => code } :=
  c7_normalization_idempotent_on_trimmed (.str "app.ts") _ rfl (by decide) (by decide)

/-- Node `AddressInfo.family`: the string `"IPv6"`/`"IPv4"` or, on older Node
versions, the numeric family. -/
inductive AddrFamily
  | str (s : String)
  | num (n : Nat)
deriving DecidableEq

/-- Node `AddressInfo`: the OS-bound socket address. -/
structure AddressInfo where
  address : String
  port : Nat
  family : AddrFamily
deriving DecidableEq

/-- Vite `server.hmr` object form: the fields this plugin reads. -/
structure HmrObj where
  protocol : Option String := none
  host : Option String := none
  clientPort : Option Nat := none
deriving DecidableEq

/-- Vite `server.hmr`: `boolean | object`. -/
inductive HmrVal
  | bool (b : Bool)
  | obj (o : HmrObj)
deriving DecidableEq

/-- Vite `server.host`: `string | boolean`. -/
inductive HostVal
  | str (s : String)
  | bool (b : Bool)
deriving DecidableEq

/-- Vite `server.https` object: the TLS key and certificate contents. -/
structure HttpsPair where
  key : String
  cert : String
deriving DecidableEq

/-- The slice of Vite `ResolvedConfig.server` read by the plugin. -/
structure ResolvedServerOptions where
  hmr : Option HmrVal := none
  host : Option HostVal := none
  https : Option HttpsPair := none
deriving DecidableEq

/-- Vite invocation command: `"serve" | "build"`. -/
inductive Command
  | serve
  | build
deriving DecidableEq

/-- The slice of Vite `ResolvedConfig` read by the plugin. -/
structure ResolvedConfig where
  command : Command
  server : ResolvedServerOptions
deriving DecidableEq

/-- `isIpv6` (src/index.ts lines 267-274): family is the string `"IPv6"` or
the number `6`. -/
def isIpv6 (address : AddressInfo) : Bool :=
  match address.family with
  | .str s => s == "IPv6"
  | .num n => n == 6

/-- `resolveDevServerUrl` (src/index.ts lines 250-265).  JavaScript `??`
becomes `Option.getD`/`orElse`; the truthiness test `configHmrProtocol ? ... :
null` makes an empty-string protocol falsy. -/
def resolveDevServerUrl (address : AddressInfo) (config : ResolvedConfig) : String :=
  let configHmrProtocol : Option String :=
    match config.server.hmr with
    | some (.obj o) => o.protocol
    | _ => none
  let clientProtocol : Option String :=
    match configHmrProtocol with
    | some p => if p = "" then none else some (if p = "wss" then "https" else "http")
    | none => none
  let serverProtocol : String := if config.server.https.isSome then "https" else "http"
  let protocol := clientProtocol.getD serverProtocol
  let configHmrHost : Option String :=
    match config.server.hmr with
    | some (.obj o) => o.host
    | _ => none
  let configHost : Option String :=
    match config.server.host with
    | some (.str s) => some s
    | _ => none
  let serverAddress : String :=
    if isIpv6 address then "[" ++ address.address ++ "]" else address.address
  let host := (configHmrHost <|> configHost).getD serverAddress
  let configHmrClientPort : Option Nat :=
    match config.server.hmr with
    | some (.obj o) => o.clientPort
    | _ => none
  let port := configHmrClientPort.getD address.port
  protocol ++ "://" ++ host ++ ":" ++ toString port

/-- Protocol choice as the claim states it: `"https"` when the HMR protocol is
the secure WebSocket protocol `"wss"`; else `"http"` when the HMR config
specifies any (truthy, i.e. non-empty) protocol; else by the server TLS flag. -/
def claimProtocolChoice (config : ResolvedConfig) : String :=
  let hmrProtocol : Option String :=
    match config.server.hmr with
    | some (.obj o) => o.protocol
    | _ => none
  if hmrProtocol = some "wss" then "https"
  else if truthyStr hmrProtocol then "http"
  else if config.server.https.isSome then "https" else "http"

/-- Host choice as the claim states it: the HMR host override if set; else the
server host override if it is a string; else the socket address literal,
bracketed when the address family is IPv6. -/
def claimHostChoice (address : AddressInfo) (config : ResolvedConfig) : String :=
  (match config.server.hmr with | some (.obj o) => o.host | _ => none).getD
    ((match config.server.host with | some (.str s) => some s | _ => none).getD
      (if isIpv6 address then "[" ++ address.address ++ "]" else address.address))

/-- Port choice as the claim states it: the HMR clientPort override if set,
else the socket port. -/
def claimPortChoice (address : AddressInfo) (config : ResolvedConfig) : Nat :=
  (match config.server.hmr with | some (.obj o) => o.clientPort | _ => none).getD address.port

theorem orElseGetD (a b : Option α) (d : α) : (a <|> b).getD d = a.getD (b.getD d) := by
  cases a <;> rfl

/-- Claim C1: for every socket address and resolved configuration the dev
server URL is `protocol://host:port` with protocol, host and port each chosen
by the claimed precedence rules ("specifies any protocol" is read as the
code's truthiness test: a non-empty protocol string). -/
theorem c1_resolveDevServerUrl_characterization (address : AddressInfo) (config : ResolvedConfig) :
    resolveDevServerUrl address config
    = claimProtocolChoice config ++ "://" ++ claimHostChoice address config
      ++ ":" ++ toString (claimPortChoice address config) := by
  simp only [resolveDevServerUrl, claimProtocolChoice, claimHostChoice, claimPortChoice,
    orElseGetD]
  generalize (match config.server.hmr with | some (.obj o) => o.protocol | _ => none) = hp
  cases hp with
  | none => simp [truthyStr]
  | some p =>
    by_cases hw : p = "wss"
    · subst hw
      simp [truthyStr]
    · by_cases he : p = ""
      · subst he
        simp [truthyStr]
      · simp [truthyStr, hw, he]

/-- In-memory file system: association list from path to contents. -/
def FS := List (String × String)

/-- `fs.readFileSync` as a lookup (also used to observe file contents). -/
def fsRead (fs : FS) (p : String) : Option String :=
  (List.find? (fun e => e.1 == p) fs).map (fun e => e.2)

/-- `fs.writeFileSync`: create or overwrite the file at `p`. -/
def fsWrite (fs : FS) (p c : String) : FS :=
  (p, c) :: List.filter (fun e => !(e.1 == p)) fs

/-- `fs.existsSync`. -/
def existsSync (fs : FS) (p : String) : Bool :=
  (fsRead fs p).isSome

/-- Remove the file at `p` from the file system. -/
def fsRemove (fs : FS) (p : String) : FS :=
  List.filter (fun e => !(e.1 == p)) fs

/-- `fs.rmSync`: throws `ENOENT` when the path does not exist. -/
def rmSync (fs : FS) (p : String) : Except String FS :=
  if existsSync fs p then .ok (fsRemove fs p) else .error "ENOENT"

/-- The `clean` teardown handler (src/index.ts lines 150-154): remove the hot
file only if it exists. -/
def cleanHotFile (hotFile : String) (fs : FS) : Except String FS :=
  if existsSync fs hotFile then rmSync fs hotFile else .ok fs

/-- The value `server.httpServer?.address()` may take:
`AddressInfo | string | null | undefined`. -/
inductive AddressVal
  | info (a : AddressInfo)
  | str (s : String)
  | nullv
  | undef

/-- The `"listening"` event handler (src/index.ts lines 137-147).  The guard
is JavaScript `typeof address === "object"`, which holds for an `AddressInfo`
and for `null` (but not for a string or `undefined`).  In the `null` case the
handler either uses a truthy user origin (and writes the hot file) or crashes
with a `TypeError` inside `resolveDevServerUrl`; in the guarded-out cases it
does nothing.  Returns the file system and the assigned dev-server URL. -/
def onListening (hotFile : String) (userOrigin : Option String) (config : ResolvedConfig)
    (addr : AddressVal) (fs : FS) : Except String (FS × Option String) :=
  match addr with
  | .info a =>
    let url := match userOrigin with
      | some o => if o = "" then resolveDevServerUrl a config else o
      | none => resolveDevServerUrl a config
    .ok (fsWrite fs hotFile url, some url)
  | .nullv =>
    match userOrigin with
    | some o =>
      if o = "" then .error "TypeError: address is null"
      else .ok (fsWrite fs hotFile o, some o)
    | none => .error "TypeError: address is null"
  | .str _ => .ok (fs, none)
  | .undef => .ok (fs, none)

theorem fsRead_fsWrite_self (fs : FS) (p c : String) :
    fsRead (fsWrite fs p c) p = some c := by
  simp [fsRead, fsWrite]

theorem fsRead_fsRemove_self (fs : FS) (p : String) :
    fsRead (fsRemove fs p) p = none := by
  simp only [fsRead, fsRemove, Option.map_eq_none', List.find?_eq_none]
  intro e he
  have h2 := List.of_mem_filter he
  simp at h2
  simp [h2]

/-- Claim C2: after the listening event with an object socket address the hot
file exists and holds the resolved dev-server URL (or a truthy user origin
verbatim); teardown removes it; teardown is idempotent and never throws, even
when the hot file is absent. -/
theorem c2_hot_file_round_trip (hotFile : String) (userOrigin : Option String)
    (config : ResolvedConfig) (a : AddressInfo) (fs : FS) :
    ∃ url fs',
      onListening hotFile userOrigin config (.info a) fs = .ok (fs', some url)
      ∧ fs' = fsWrite fs hotFile url
      ∧ existsSync fs' hotFile = true
      ∧ fsRead fs' hotFile = some url
      ∧ (truthyStr userOrigin = false → url = resolveDevServerUrl a config)
      ∧ (∀ o, userOrigin = some o → o ≠ "" → url = o)
      ∧ cleanHotFile hotFile fs' = .ok (fsRemove fs' hotFile)
      ∧ existsSync (fsRemove fs' hotFile) hotFile = false
      ∧ cleanHotFile hotFile (fsRemove fs' hotFile) = .ok (fsRemove fs' hotFile)
      ∧ (∀ g : FS, existsSync g hotFile = false → cleanHotFile hotFile g = .ok g) := by
  refine ⟨(match userOrigin with
      | some o => if o = "" then resolveDevServerUrl a config else o
      | none => resolveDevServerUrl a config),
    fsWrite fs hotFile (match userOrigin with
      | some o => if o = "" then resolveDevServerUrl a config else o
      | none => resolveDevServerUrl a config),
    rfl, rfl, ?_, ?_, ?_, ?_, ?_, ?_, ?_, ?_⟩
  · simp [existsSync, fsRead_fsWrite_self]
  · exact fsRead_fsWrite_self _ _ _
  · intro h
    cases userOrigin with
    | none => rfl
    | some o =>
      simp [truthyStr] at h
      simp [h]
  · intro o ho hne
    subst ho
    simp [hne]
  · have hex : existsSync (fsWrite fs hotFile (match userOrigin with
        | some o => if o = "" then resolveDevServerUrl a config else o
        | none => resolveDevServerUrl a config)) hotFile = true := by
      simp [existsSync, fsRead_fsWrite_self]
    simp [cleanHotFile, rmSync, hex]
  · simp [existsSync, fsRead_fsRemove_self]
  · have hex : existsSync (fsRemove (fsWrite fs hotFile (match userOrigin with
        | some o => if o = "" then resolveDevServerUrl a config else o
        | none => resolveDevServerUrl a config)) hotFile) hotFile = false := by
      simp [existsSync, fsRead_fsRemove_self]
    simp [cleanHotFile, hex]
  · intro g hg
    simp [cleanHotFile, hg]

/-- Witness for C2: concrete round trip with an explicit user origin. -/
theorem c2_hot_file_round_trip_witness :
    fsRead (fsWrite ([] : FS) "public/hot" "http://example.test:8080") "public/hot"
      = some "http://example.test:8080" := by
  obtain ⟨url, fs', h1, h2, h3, h4, h5, h6, h7, h8, h9, h10⟩ :=
    c2_hot_file_round_trip "public/hot" (some "http://example.test:8080")
      ⟨.serve, {}⟩ ⟨"127.0.0.1", 5173, .str "IPv4"⟩ []
  have hurl : url = "http://example.test:8080" := h6 _ rfl (by decide)
  rw [h2, hurl] at h4
  exact h4

/-- Process-wide handler-registration state: the `exitHandlersBound` flag
(src/index.ts line 59) and the list of attached handler events. -/
structure ProcessHandlers where
  exitHandlersBound : Bool
  handlers : List String
deriving DecidableEq

/-- State of a fresh process. -/
def initProcessHandlers : ProcessHandlers := ⟨false, []⟩

/-- The handler-registration step of `configureServer`
(src/index.ts lines 149-162): attach the four handlers and set the flag, but
only when the flag is not yet set. -/
def bindExitHandlers (s : ProcessHandlers) : ProcessHandlers :=
  if s.exitHandlersBound then s
  else { exitHandlersBound := true
         handlers := s.handlers ++ ["exit", "SIGINT", "SIGTERM", "SIGHUP"] }

/-- Claim C8: the exit/signal handlers are registered at most once per
process — once the flag is set an invocation is a no-op, and any positive
number of `configureServer` invocations from a fresh process leaves exactly
the four handlers attached. -/
theorem c8_exit_handlers_bound_once :
    (∀ s : ProcessHandlers, s.exitHandlersBound = true → bindExitHandlers s = s)
    ∧ ∀ n : Nat, 1 ≤ n →
      bindExitHandlers^[n] initProcessHandlers
        = ⟨true, ["exit", "SIGINT", "SIGTERM", "SIGHUP"]⟩ := by
  constructor
  · intro s hs
    simp [bindExitHandlers, hs]
  · intro n hn
    induction n with
    | zero => cases hn
    | succ m ih =>
      rw [Function.iterate_succ_apply']
      cases Nat.eq_zero_or_pos m with
      | inl h0 =>
        subst h0
        rfl
      | inr hpos =>
        rw [ih hpos]
        rfl

/-- Witness for C8: a second invocation changes nothing. -/
theorem c8_exit_handlers_bound_once_witness :
    bindExitHandlers ⟨true, ["exit", "SIGINT", "SIGTERM", "SIGHUP"]⟩
      = ⟨true, ["exit", "SIGINT", "SIGTERM", "SIGHUP"]⟩
    ∧ bindExitHandlers^[2] initProcessHandlers
      = ⟨true, ["exit", "SIGINT", "SIGTERM", "SIGHUP"]⟩ :=
  ⟨c8_exit_handlers_bound_once.1 _ rfl, c8_exit_handlers_bound_once.2 2 (by decide)⟩

/-- Claim C9 counterexample: a `null` address is not an `AddressInfo`, yet it
passes the handler's `typeof address === "object"` guard (JavaScript `typeof
null` is `"object"`); with a truthy user origin the handler then writes the
hot file, contradicting the claim that nothing is written. -/
theorem c9_counterexample :
    ¬ (∀ (hotFile : String) (userOrigin : Option String) (config : ResolvedConfig)
        (addr : AddressVal) (fs : FS),
        (addr = .nullv ∨ (∃ s, addr = .str s) ∨ addr = .undef) →
        onListening hotFile userOrigin config addr fs = .ok (fs, none)) := by
  intro h
  have hinst := h "public/hot" (some "http://example.test:8080") ⟨.serve, {}⟩ .nullv []
    (Or.inl rfl)
  rw [show onListening "public/hot" (some "http://example.test:8080") ⟨.serve, {}⟩ .nullv []
      = .ok ([("public/hot", "http://example.test:8080")], some "http://example.test:8080")
    from rfl] at hinst
  simp at hinst

/-- Claim C9 (amended): when the reported address is a string (a pipe name) or
`undefined` — the only values of the address union whose JavaScript `typeof`
is not `"object"` — the handler writes no hot file and assigns no dev-server
URL; a `null` address, however, passes the `typeof` guard. -/
theorem c9_non_object_address_no_write (hotFile : String) (userOrigin : Option String)
    (config : ResolvedConfig) (fs : FS) :
    (∀ s, onListening hotFile userOrigin config (.str s) fs = .ok (fs, none))
    ∧ onListening hotFile userOrigin config .undef fs = .ok (fs, none) :=
  ⟨fun _ => rfl, rfl⟩

/-- The environment variables the plugin consumes (values from `loadEnv`;
`none` models an unset variable). -/
structure Env where
  VITE_DEV_SERVER_KEY : Option String := none
  VITE_DEV_SERVER_CERT : Option String := none
  APP_URL : Option String := none
  ASSET_URL : Option String := none

/-- The disk as seen by `fs.existsSync` / `fs.readFileSync`. -/
structure Disk where
  pathExists : String → Bool
  readFile : String → String

/-- `fs.existsSync` applied to a possibly-undefined path: on an invalid
argument (`undefined`) it returns `false` rather than throwing. -/
def existsSyncPath (d : Disk) (p : Option String) : Bool :=
  match p with
  | some s => d.pathExists s
  | none => false

/-- `fs.readFileSync` applied to a path known to be present (the `none` case
is unreachable behind the `existsSync` guard). -/
def readFileSyncPath (d : Disk) : Option String → String
  | some p => d.readFile p
  | none => ""

/-- The `hmr` part of the environment-derived server config. -/
structure EnvHmr where
  host : String
deriving DecidableEq

/-- The record returned by `resolveEnvironmentServerConfig` on success. -/
structure EnvServerConfig where
  hmr : EnvHmr
  host : String
  https : HttpsPair
deriving DecidableEq

/-- `resolveHostFromEnv` (src/index.ts lines 315-321): parse the host out of
`APP_URL` with the WHATWG `URL` parser, `undefined` on failure.  The parser
itself is external to the repository, so it is a parameter `parseUrlHost`. -/
def resolveHostFromEnv (parseUrlHost : Option String → Option String) (env : Env) :
    Option String :=
  parseUrlHost env.APP_URL

/-- `resolveEnvironmentServerConfig` (src/index.ts lines 279-310).  JavaScript
`!env.X` is falsy for an unset or empty variable; `fs.existsSync` of an unset
variable is `false`. -/
def resolveEnvironmentServerConfig (parseUrlHost : Option String → Option String)
    (d : Disk) (env : Env) : Except String (Option EnvServerConfig) :=
  if !truthyStr env.VITE_DEV_SERVER_KEY && !truthyStr env.VITE_DEV_SERVER_CERT then
    .ok none
  else if !existsSyncPath d env.VITE_DEV_SERVER_KEY
      || !existsSyncPath d env.VITE_DEV_SERVER_CERT then
    .error "Unable to find the certificate files specified in your environment. Ensure you have correctly configured VITE_DEV_SERVER_KEY and VITE_DEV_SERVER_CERT."
  else
    let host := resolveHostFromEnv parseUrlHost env
    if !truthyStr host then
      .error "Unable to determine the host from the environment APP_URL."
    else
      .ok (some
        { hmr := { host := host.getD "" }
          host := host.getD ""
          https :=
            { key := readFileSyncPath d env.VITE_DEV_SERVER_KEY
              cert := readFileSyncPath d env.VITE_DEV_SERVER_CERT } })

/-- Claim C4: environment server-config resolution returns no override when
neither TLS variable is set; errors when exactly one is set (for a real disk,
where the empty path never exists) or when a referenced path is missing or no
truthy host parses from APP_URL; and on success returns the host, the same
host under hmr, and the two files' contents under https. -/
theorem c4_resolveEnvironmentServerConfig_cases
    (parseUrlHost : Option String → Option String) (d : Disk) (env : Env) :
    (truthyStr env.VITE_DEV_SERVER_KEY = false → truthyStr env.VITE_DEV_SERVER_CERT = false →
      resolveEnvironmentServerConfig parseUrlHost d env = .ok none)
    ∧ (d.pathExists "" = false →
        ((truthyStr env.VITE_DEV_SERVER_KEY = true ∧ truthyStr env.VITE_DEV_SERVER_CERT = false)
          ∨ (truthyStr env.VITE_DEV_SERVER_KEY = false ∧ truthyStr env.VITE_DEV_SERVER_CERT = true)) →
        exceptIsError (resolveEnvironmentServerConfig parseUrlHost d env) = true)
    ∧ ((truthyStr env.VITE_DEV_SERVER_KEY = true ∨ truthyStr env.VITE_DEV_SERVER_CERT = true) →
        (existsSyncPath d env.VITE_DEV_SERVER_KEY = false
          ∨ existsSyncPath d env.VITE_DEV_SERVER_CERT = false) →
        exceptIsError (resolveEnvironmentServerConfig parseUrlHost d env) = true)
    ∧ (truthyStr env.VITE_DEV_SERVER_KEY = true →
        existsSyncPath d env.VITE_DEV_SERVER_KEY = true →
        existsSyncPath d env.VITE_DEV_SERVER_CERT = true →
        truthyStr (parseUrlHost env.APP_URL) = false →
        exceptIsError (resolveEnvironmentServerConfig parseUrlHost d env) = true)
    ∧ (∀ k c h, env.VITE_DEV_SERVER_KEY = some k → env.VITE_DEV_SERVER_CERT = some c →
        truthyStr (some k) = true →
        d.pathExists k = true → d.pathExists c = true →
        parseUrlHost env.APP_URL = some h → h ≠ "" →
        resolveEnvironmentServerConfig parseUrlHost d env
          = .ok (some { hmr := { host := h }, host := h,
                        https := { key := d.readFile k, cert := d.readFile c } })) := by
  refine ⟨?_, ?_, ?_, ?_, ?_⟩
  · intro hk hc
    simp [resolveEnvironmentServerConfig, hk, hc]
  · intro hdz hone
    cases hone with
    | inl h =>
      obtain ⟨hk, hc⟩ := h
      have hcex : existsSyncPath d env.VITE_DEV_SERVER_CERT = false := by
        cases hcv : env.VITE_DEV_SERVER_CERT with
        | none => rfl
        | some s =>
          rw [hcv] at hc
          simp [truthyStr] at hc
          subst hc
          simp [existsSyncPath, hdz]
      simp [resolveEnvironmentServerConfig, hk, hcex, exceptIsError]
    | inr h =>
      obtain ⟨hk, hc⟩ := h
      have hkex : existsSyncPath d env.VITE_DEV_SERVER_KEY = false := by
        cases hkv : env.VITE_DEV_SERVER_KEY with
        | none => rfl
        | some s =>
          rw [hkv] at hk
          simp [truthyStr] at hk
          subst hk
          simp [existsSyncPath, hdz]
      simp [resolveEnvironmentServerConfig, hk, hc, hkex, exceptIsError]
  · intro hset hmiss
    have hguard : (!truthyStr env.VITE_DEV_SERVER_KEY
        && !truthyStr env.VITE_DEV_SERVER_CERT) = false := by
      cases hset with
      | inl h => simp [h]
      | inr h => simp [h]
    cases hmiss with
    | inl h => simp [resolveEnvironmentServerConfig, hguard, h, exceptIsError]
    | inr h => simp [resolveEnvironmentServerConfig, hguard, h, exceptIsError]
  · intro hk hke hce hh
    simp [resolveEnvironmentServerConfig, hk, hke, hce, resolveHostFromEnv, hh, exceptIsError]
  · intro k c h hk hc hkt hdk hdc hph hne
    have hk0 : k ≠ "" := by simpa [truthyStr] using hkt
    simp [resolveEnvironmentServerConfig, hk, hc, truthyStr, existsSyncPath, hdk, hdc,
      resolveHostFromEnv, readFileSyncPath, hph, hne]
    intro hk1
    exact absurd hk1 hk0

/-- Witness for C4: a concrete success (both files exist, host parses) and a
concrete failure (key variable set without the cert variable). -/
theorem c4_resolveEnvironmentServerConfig_cases_witness :
    resolveEnvironmentServerConfig (fun _ => some "example.test")
      ⟨fun p => p == "key.pem" || p == "cert.pem", fun _ => "PEM"⟩
      { VITE_DEV_SERVER_KEY := some "key.pem", VITE_DEV_SERVER_CERT := some "cert.pem",
        APP_URL := some "https://example.test", ASSET_URL := none }
      = .ok (some { hmr := { host := "example.test" }, host := "example.test",
                    https := { key := "PEM", cert := "PEM" } })
    ∧ exceptIsError (resolveEnvironmentServerConfig (fun _ => some "example.test")
      ⟨fun p => p == "key.pem" || p == "cert.pem", fun _ => "PEM"⟩
      { VITE_DEV_SERVER_KEY := some "key.pem", VITE_DEV_SERVER_CERT := none,
        APP_URL := some "https://example.test", ASSET_URL := none }) = true :=
  ⟨(c4_resolveEnvironmentServerConfig_cases _ _ _).2.2.2.2 "key.pem" "cert.pem" "example.test"
      rfl rfl (by decide) (by decide) (by decide) rfl (by decide),
   (c4_resolveEnvironmentServerConfig_cases _ _ _).2.1 (by decide)
      (Or.inl ⟨by decide, by decide⟩)⟩

/-- Vite `build.manifest`: `boolean | string`. -/
inductive ManifestVal
  | str (s : String)
  | bool (b : Bool)
deriving DecidableEq

/-- Vite `publicDir`: a directory string or `false` to disable serving. -/
inductive PublicDirVal
  | str (s : String)
  | fls
deriving DecidableEq

/-- The slice of the user `build` options the plugin reads. -/
structure UserBuild where
  manifest : Option ManifestVal := none
  outDir : Option String := none
  rollupInput : Option InputVal := none
  assetsInlineLimit : Option Nat := none
deriving DecidableEq

/-- The slice of the user `server` options the plugin reads. -/
structure UserServer where
  origin : Option String := none
  host : Option HostVal := none
  hmr : Option HmrVal := none
  https : Option HttpsPair := none
deriving DecidableEq

/-- Vite `resolve.alias`: an alias array or an alias object, modelled as an
association list either way. -/
inductive AliasVal
  | arr (l : List (String × String))
  | amap (l : List (String × String))
deriving DecidableEq

/-- The slice of the user `resolve` options the plugin reads. -/
structure UserResolve where
  aliasVal : Option AliasVal := none
deriving DecidableEq

/-- The slice of the Vite `UserConfig` the plugin reads. -/
structure UserConfig where
  base : Option String := none
  publicDir : Option PublicDirVal := none
  build : Option UserBuild := none
  server : Option UserServer := none
  resolve : Option UserResolve := none
deriving DecidableEq

/-- JavaScript `userConfig.build?.x`: an absent `build` yields all-absent fields. -/
def ubuild (u : UserConfig) : UserBuild := u.build.getD {}

/-- JavaScript `userConfig.server?.x`: an absent `server` yields all-absent fields. -/
def userver (u : UserConfig) : UserServer := u.server.getD {}

/-- `resolveBase` (src/index.ts lines 229-231). -/
def resolveBase (config : PluginConfigFull) (assetUrl : String) : String :=
  assetUrl ++ (if assetUrl.data.getLast? = some '/' then "" else "/")
    ++ config.buildDirectory ++ "/"

/-- `resolveInput` (src/index.ts lines 236-238). -/
def resolveInput (config : PluginConfigFull) : InputVal := config.input

/-- `resolveOutDir` (src/index.ts lines 243-245). -/
def resolveOutDir (config : PluginConfigFull) : String :=
  pathJoin config.publicDirectory config.buildDirectory

/-- The `hmr` value the config hook can return: `false` or a merged object. -/
inductive RetHmr
  | fls
  | obj (o : HmrObj)
deriving DecidableEq

/-- The `server` part of the partial config returned by the hook; host, hmr
and https keys are present only when an environment server config exists. -/
structure RetServer where
  origin : String
  host : Option HostVal
  hmr : Option RetHmr
  https : Option HttpsPair
deriving DecidableEq

/-- The `build` part of the partial config returned by the hook. -/
structure RetBuild where
  manifest : ManifestVal
  outDir : String
  rollupInput : InputVal
  assetsInlineLimit : Nat
deriving DecidableEq

/-- The partial configuration returned by the plugin's `config` hook. -/
structure RetConfig where
  base : String
  publicDir : PublicDirVal
  build : RetBuild
  server : RetServer
  aliasVal : AliasVal
deriving DecidableEq

/-- The object literal returned by the `config` hook (src/index.ts lines
88-122), after the environment server config has been resolved (line 86).
Every computed value sits behind a JavaScript `??` on the user's value; the
`hmr` merge spreads the environment hmr object under the user's partial hmr
object (`false` wins, `true` contributes no fields). -/
def backendConfigHookCore (pluginConfig : PluginConfigFull) (u : UserConfig)
    (command : Command) (assetUrl : String) (serverConfig : Option EnvServerConfig) :
    RetConfig :=
  { base := u.base.getD (if command = .build then resolveBase pluginConfig assetUrl else "")
    publicDir := u.publicDir.getD .fls
    build :=
      { manifest := (ubuild u).manifest.getD (.str "manifest.json")
        outDir := (ubuild u).outDir.getD (resolveOutDir pluginConfig)
        rollupInput := (ubuild u).rollupInput.getD (resolveInput pluginConfig)
        assetsInlineLimit := (ubuild u).assetsInlineLimit.getD 0 }
    server :=
      { origin := (userver u).origin.getD "__backend_vite_placeholder__"
        host :=
          match serverConfig with
          | some sc => some ((userver u).host.getD (.str sc.host))
          | none => none
        hmr :=
          match serverConfig with
          | some sc =>
            some (match (userver u).hmr with
              | some (.bool false) => .fls
              | some (.bool true) => .obj { host := some sc.hmr.host }
              | some (.obj o) =>
                .obj { protocol := o.protocol
                       host := o.host <|> some sc.hmr.host
                       clientPort := o.clientPort }
              | none => .obj { host := some sc.hmr.host })
          | none => none
        https :=
          match serverConfig with
          | some sc => some ((userver u).https.getD sc.https)
          | none => none }
    aliasVal :=
      match (u.resolve.getD {}).aliasVal with
      | some (.arr l) => .arr l
      | some (.amap m) => .amap m
      | none => .amap [] }

/-- The plugin's `config` hook (src/index.ts lines 82-123): resolve the
environment server config in serve mode (possibly throwing), then build the
partial configuration.  `loadEnv` is external; its result is the `env`
parameter, and `assetUrl` is `env.ASSET_URL ?? ""` (line 85). -/
def backendConfigHook (parseUrlHost : Option String → Option String) (d : Disk)
    (pluginConfig : PluginConfigFull) (u : UserConfig) (command : Command) (env : Env) :
    Except String RetConfig :=
  let assetUrl := env.ASSET_URL.getD ""
  match (if command = .serve then resolveEnvironmentServerConfig parseUrlHost d env
         else .ok none) with
  | .error e => .error e
  | .ok sc => .ok (backendConfigHookCore pluginConfig u command assetUrl sc)

/-- An `hmr` value in the merged (effective) configuration. -/
inductive EffHmr
  | fls
  | tru
  | obj (o : HmrObj)
deriving DecidableEq

/-- View a user `hmr` value in the effective configuration. -/
def userHmrToEff : HmrVal → EffHmr
  | .bool true => .tru
  | .bool false => .fls
  | .obj o => .obj o

/-- View a returned `hmr` value in the effective configuration. -/
def retHmrToEff : RetHmr → EffHmr
  | .fls => .fls
  | .obj o => .obj o

/-- The fields of the effective configuration the claims speak about. -/
structure EffConfig where
  base : String
  publicDir : PublicDirVal
  manifest : ManifestVal
  outDir : String
  rollupInput : InputVal
  assetsInlineLimit : Nat
  origin : String
  host : Option HostVal
  hmr : Option EffHmr
  https : Option HttpsPair
deriving DecidableEq

/-- Vite merges the partial configuration returned by a `config` hook over the
user configuration, the returned values taking precedence; a key the hook did
not return keeps the user's value.  Restricted to the fields this plugin
touches. -/
def effectiveConfig (u : UserConfig) (r : RetConfig) : EffConfig :=
  { base := r.base
    publicDir := r.publicDir
    manifest := r.build.manifest
    outDir := r.build.outDir
    rollupInput := r.build.rollupInput
    assetsInlineLimit := r.build.assetsInlineLimit
    origin := r.server.origin
    host := r.server.host <|> (userver u).host
    hmr := (r.server.hmr.map retHmrToEff) <|> ((userver u).hmr.map userHmrToEff)
    https := r.server.https <|> (userver u).https }

/-- Claim C5: the merged configuration never overwrites a value the user set
explicitly — every computed value is only a fallback.  For each field the user
may set, if it is set then the effective configuration carries it unchanged. -/
theorem c5_user_values_survive_merge (pluginConfig : PluginConfigFull) (u : UserConfig)
    (command : Command) (assetUrl : String) (serverConfig : Option EnvServerConfig) :
    (∀ b, u.base = some b →
      (effectiveConfig u (backendConfigHookCore pluginConfig u command assetUrl serverConfig)).base = b)
    ∧ (∀ p, u.publicDir = some p →
      (effectiveConfig u (backendConfigHookCore pluginConfig u command assetUrl serverConfig)).publicDir = p)
    ∧ (∀ m, (ubuild u).manifest = some m →
      (effectiveConfig u (backendConfigHookCore pluginConfig u command assetUrl serverConfig)).manifest = m)
    ∧ (∀ od, (ubuild u).outDir = some od →
      (effectiveConfig u (backendConfigHookCore pluginConfig u command assetUrl serverConfig)).outDir = od)
    ∧ (∀ i, (ubuild u).rollupInput = some i →
      (effectiveConfig u (backendConfigHookCore pluginConfig u command assetUrl serverConfig)).rollupInput = i)
    ∧ (∀ l, (ubuild u).assetsInlineLimit = some l →
      (effectiveConfig u (backendConfigHookCore pluginConfig u command assetUrl serverConfig)).assetsInlineLimit = l)
    ∧ (∀ o, (userver u).origin = some o →
      (effectiveConfig u (backendConfigHookCore pluginConfig u command assetUrl serverConfig)).origin = o)
    ∧ (∀ h, (userver u).host = some h →
      (effectiveConfig u (backendConfigHookCore pluginConfig u command assetUrl serverConfig)).host = some h)
    ∧ (∀ hp, (userver u).https = some hp →
      (effectiveConfig u (backendConfigHookCore pluginConfig u command assetUrl serverConfig)).https = some hp)
    ∧ (∀ o, (userver u).hmr = some (.obj o) →
      ∃ e, (effectiveConfig u (backendConfigHookCore pluginConfig u command assetUrl serverConfig)).hmr
          = some (.obj e)
        ∧ (∀ p, o.protocol = some p → e.protocol = some p)
        ∧ (∀ h, o.host = some h → e.host = some h)
        ∧ (∀ cp, o.clientPort = some cp → e.clientPort = some cp)) := by
  refine ⟨?_, ?_, ?_, ?_, ?_, ?_, ?_, ?_, ?_, ?_⟩
  · intro b hb
    simp [effectiveConfig, backendConfigHookCore, hb]
  · intro p hp
    simp [effectiveConfig, backendConfigHookCore, hp]
  · intro m hm
    simp [effectiveConfig, backendConfigHookCore, hm]
  · intro od hod
    simp [effectiveConfig, backendConfigHookCore, hod]
  · intro i hi
    simp [effectiveConfig, backendConfigHookCore, hi]
  · intro l hl
    simp [effectiveConfig, backendConfigHookCore, hl]
  · intro o ho
    simp [effectiveConfig, backendConfigHookCore, ho]
  · intro h hh
    cases serverConfig with
    | none => simp [effectiveConfig, backendConfigHookCore, hh]
    | some sc => simp [effectiveConfig, backendConfigHookCore, hh]
  · intro hp hhp
    cases serverConfig with
    | none => simp [effectiveConfig, backendConfigHookCore, hhp]
    | some sc => simp [effectiveConfig, backendConfigHookCore, hhp]
  · intro o ho
    cases serverConfig with
    | none =>
      refine ⟨o, ?_, fun p hp => hp, fun h hh => hh, fun cp hcp => hcp⟩
      simp [effectiveConfig, backendConfigHookCore, ho, userHmrToEff]
    | some sc =>
      refine ⟨{ protocol := o.protocol
                host := o.host <|> some sc.hmr.host
                clientPort := o.clientPort }, ?_, fun p hp => hp, ?_, fun cp hcp => hcp⟩
      · simp [effectiveConfig, backendConfigHookCore, ho, retHmrToEff]
      · intro h hh
        simp [hh]

/-- Witness for C5: an explicit `base` of `"/custom/"` survives the merge
verbatim. -/
theorem c5_user_values_survive_merge_witness :
    (effectiveConfig { base := some "/custom/" }
      (backendConfigHookCore
        { name := "backend", input := InputVal.one "app.ts", publicDirectory := "public",
          buildDirectory := "build", hotFile := "public/hot", detectTls := DetectTls.null,
          transformOnServe := fun code _ => code }
        { base := some "/custom/" } .build "http://cdn.example" none)).base = "/custom/" :=
  (c5_user_values_survive_merge _ _ _ _ _).1 "/custom/" rfl

/-- Claim C10: in serve mode with an environment-derived server config, a user
`server.hmr` of literal `true` merges to exactly the environment hmr object
(only its host, no other fields), while literal `false` merges to `false`. -/
theorem c10_hmr_literal_bool (parseUrlHost : Option String → Option String) (d : Disk)
    (pluginConfig : PluginConfigFull) (u : UserConfig) (env : Env) (sc : EnvServerConfig)
    (hsc : resolveEnvironmentServerConfig parseUrlHost d env = .ok (some sc)) :
    ((userver u).hmr = some (.bool true) →
      (backendConfigHook parseUrlHost d pluginConfig u .serve env).map (fun r => r.server.hmr)
        = .ok (some (.obj { host := some sc.hmr.host })))
    ∧ ((userver u).hmr = some (.bool false) →
      (backendConfigHook parseUrlHost d pluginConfig u .serve env).map (fun r => r.server.hmr)
        = .ok (some .fls)) := by
  constructor <;> intro h <;>
    simp [backendConfigHook, hsc, backendConfigHookCore, h, Except.map]

/-- Witness for C10: concrete environment and disk, user `hmr = true`. -/
theorem c10_hmr_literal_bool_witness :
    (backendConfigHook (fun _ => some "example.test")
      ⟨fun p => p == "k" || p == "c", fun _ => "PEM"⟩
      { name := "backend", input := InputVal.one "app.ts", publicDirectory := "public",
        buildDirectory := "build", hotFile := "public/hot", detectTls := DetectTls.null,
        transformOnServe := fun code _ => code }
      { server := some { hmr := some (.bool true) } } .serve
      { VITE_DEV_SERVER_KEY := some "k", VITE_DEV_SERVER_CERT := some "c",
        APP_URL := some "https://example.test", ASSET_URL := none }).map (fun r => r.server.hmr)
      = .ok (some (.obj { host := some "example.test" })) :=
  (c10_hmr_literal_bool (fun _ => some "example.test")
      ⟨fun p => p == "k" || p == "c", fun _ => "PEM"⟩
      { name := "backend", input := InputVal.one "app.ts", publicDirectory := "public",
        buildDirectory := "build", hotFile := "public/hot", detectTls := DetectTls.null,
        transformOnServe := fun code _ => code }
      { server := some { hmr := some (.bool true) } }
      { VITE_DEV_SERVER_KEY := some "k", VITE_DEV_SERVER_CERT := some "c",
        APP_URL := some "https://example.test", ASSET_URL := none }
      ⟨⟨"example.test"⟩, "example.test", ⟨"PEM", "PEM"⟩⟩ rfl).1 rfl

/-- Whether `pat` is a leading segment of `l`. -/
def leadsWith : List Char → List Char → Bool
  | [], _ => true
  | _ :: _, [] => false
  | a :: as, b :: bs => a == b && leadsWith as bs

/-- One pass of JavaScript `str.replace(/pat/g, rep)` for a fixed non-empty
pattern `p :: ps`: scan left to right, replace each non-overlapping leftmost
occurrence, continue after the replaced segment. -/
def replaceScan (p : Char) (ps rep : List Char) : List Char → List Char
  | [] => []
  | c :: cs =>
    if leadsWith (p :: ps) (c :: cs) then rep ++ replaceScan p ps rep (cs.drop ps.length)
    else c :: replaceScan p ps rep cs
termination_by s => s.length
decreasing_by
  · simp [List.length_drop]
    omega
  · simp

/-- Split at every non-overlapping leftmost occurrence of the non-empty
pattern `p :: ps` (the segments between occurrences, in order). -/
def splitScan (p : Char) (ps : List Char) : List Char → List (List Char)
  | [] => [[]]
  | c :: cs =>
    if leadsWith (p :: ps) (c :: cs) then [] :: splitScan p ps (cs.drop ps.length)
    else
      match splitScan p ps cs with
      | [] => [[c]]
      | seg :: rest => (c :: seg) :: rest
termination_by s => s.length
decreasing_by
  · simp [List.length_drop]
    omega
  · simp

/-- Interleave `sep` between consecutive segments. -/
def joinWith (sep : List Char) : List (List Char) → List Char
  | [] => []
  | [x] => x
  | x :: y :: rest => x ++ sep ++ joinWith sep (y :: rest)

theorem splitScan_ne_nil (p : Char) (ps : List Char) (s : List Char) :
    splitScan p ps s ≠ [] := by
  cases s with
  | nil => simp [splitScan]
  | cons c cs =>
    rw [splitScan]
    split
    · simp
    · split <;> simp

theorem joinWith_cons_cons (sep : List Char) (c : Char) (seg : List Char)
    (rest : List (List Char)) :
    joinWith sep ((c :: seg) :: rest) = c :: joinWith sep (seg :: rest) := by
  cases rest <;> simp [joinWith]

theorem replaceScan_eq_joinWith_splitScan (p : Char) (ps rep : List Char) :
    ∀ s : List Char, replaceScan p ps rep s = joinWith rep (splitScan p ps s) := by
  have main : ∀ n : Nat, ∀ s : List Char, s.length ≤ n →
      replaceScan p ps rep s = joinWith rep (splitScan p ps s) := by
    intro n
    induction n with
    | zero =>
      intro s hs
      have : s = [] := List.length_eq_zero.mp (Nat.le_zero.mp hs)
      subst this
      simp [replaceScan, splitScan, joinWith]
    | succ m ih =>
      intro s hs
      cases s with
      | nil => simp [replaceScan, splitScan, joinWith]
      | cons c cs =>
        rw [replaceScan, splitScan]
        by_cases hlw : leadsWith (p :: ps) (c :: cs) = true
        · rw [if_pos hlw, if_pos hlw]
          have hrec := ih (cs.drop ps.length)
            (by simp [List.length_drop] at hs ⊢; omega)
          rw [hrec]
          cases hsplit : splitScan p ps (cs.drop ps.length) with
          | nil => exact absurd hsplit (splitScan_ne_nil p ps _)
          | cons seg rest => simp [joinWith]
        · rw [if_neg hlw, if_neg hlw]
          have hrec := ih cs (by simp at hs; omega)
          rw [hrec]
          cases hsplit : splitScan p ps cs with
          | nil => exact absurd hsplit (splitScan_ne_nil p ps _)
          | cons seg rest =>
            rw [joinWith_cons_cons]
  intro s
  exact main s.length s (le_refl _)

/-- The placeholder origin token written into `server.origin`
(src/index.ts line 100). -/
def placeholderToken : String := "__backend_vite_placeholder__"

/-- JavaScript `s.replace(/pat/g, rep)` for a fixed literal pattern. -/
def jsGlobalReplace (pat rep s : String) : String :=
  match pat.data with
  | [] => s
  | p :: ps => String.mk (replaceScan p ps rep.data s.data)

/-- The plugin's `transform` hook (src/index.ts lines 127-132): in serve mode
replace every occurrence of the placeholder token with the dev-server URL and
hand the result to the user's `transformOnServe`; otherwise return nothing. -/
def transformHook (command : Command) (transformOnServe : String → String → String)
    (viteDevServerUrl : String) (code : String) : Option String :=
  if command = .serve then
    some (transformOnServe (jsGlobalReplace placeholderToken viteDevServerUrl code)
      viteDevServerUrl)
  else none

/-- Source text split at every occurrence of the placeholder token: the
spec-side reading of "replaces every occurrence". -/
def splitOnToken (code : String) : List (List Char) :=
  match placeholderToken.data with
  | [] => [code.data]
  | p :: ps => splitScan p ps code.data

/-- Claim C6: in serve mode the transform rewrites the source to its segments
between token occurrences joined by the dev-server URL — every occurrence
replaced — and passes the result to `transformOnServe`; in any other command
mode it performs no replacement and returns nothing. -/
theorem c6_transform_serve_replaces_all (transformOnServe : String → String → String)
    (url code : String) :
    (transformHook .serve transformOnServe url code
      = some (transformOnServe (String.mk (joinWith url.data (splitOnToken code))) url))
    ∧ (∀ command, command ≠ .serve →
        transformHook command transformOnServe url code = none) := by
  constructor
  · have hpat : placeholderToken.data = '_' :: "_backend_vite_placeholder__".data := rfl
    simp [transformHook, jsGlobalReplace, splitOnToken, hpat,
      replaceScan_eq_joinWith_splitScan]
  · intro command hc
    cases command with
    | serve => exact absurd rfl hc
    | build => rfl

/-- Witness for C6: a build-mode transform returns nothing. -/
theorem c6_transform_serve_replaces_all_witness :
    transformHook .build (fun code _ => code) "http://example.test:8080"
      "import \x22__backend_vite_placeholder__/app.ts\x22" = none :=
  (c6_transform_serve_replaces_all (fun code _ => code) "http://example.test:8080"
    "import \x22__backend_vite_placeholder__/app.ts\x22").2 .build (by decide)
